import Mathlib

/-!
Verification development for the retrieval core of the ai-rag-study-assistant
backend (chunker, offline embedding provider, vector store access, retrieval
scoring, ingestion pipeline).

The Python sources are shallowly embedded as follows.

Numbers: vector components and scores are modelled in `ℚ` (the Python code
computes in IEEE-754 floating point; none of the properties proved here
depends on rounding, only on counts, order and control flow).  Machine
integers that matter are `Nat` with explicit truncation where the code
truncates.

Strings: Python `str` is modelled as `List Char`; `str.strip()` is
`pyStrip` over `Char.isWhitespace` (the ASCII whitespace relevant to the
inputs considered here), and `text[a:b]` is `pySlice`.

Similarity: `app/rag/retrieve.py` computes cosine similarity with
`_cosine_sim_matrix` (dot product over the product of euclidean norms plus
an epsilon, in floating point).  The square roots inside the norms have no
exact rational counterpart, so the scoring kernel is a parameter
`sim : List ℚ → List ℚ → ℚ` of the retrieval pipeline; every property
proved about retrieval is proved for all `sim`, hence in particular for the
cosine kernel.  The structural dimension checks that numpy performs
(`np.frombuffer` with `count=dim`, `np.vstack`, `M @ q`) are embedded
explicitly, since the error-handling claims are about exactly those checks.

`np.argsort(-sims)` is modelled as a stable insertion sort of the
`(index, score)` pairs by descending score.  The default numpy sort is an
introsort whose tie order is an implementation detail; the properties
proved here (hit count, descending order, tenant isolation, hard errors)
are independent of the tie order.
-/

namespace Rag

/-! ## Chunker (`app/rag/ingest.py`, `chunk_text`) -/

/-- A produced chunk: `@dataclass class Chunk: chunk_index: int; content: str`. -/
structure Chunk where
  chunk_index : Nat
  content : List Char
deriving DecidableEq, Repr

/-- Python `str.strip()`: drop leading and trailing whitespace. -/
def pyStrip (s : List Char) : List Char :=
  ((s.dropWhile Char.isWhitespace).reverse.dropWhile Char.isWhitespace).reverse

/-- Python `text[a:b]` for `0 ≤ a ≤ b ≤ len text`. -/
def pySlice (s : List Char) (a b : Nat) : List Char :=
  (s.drop a).take (b - a)

/-- The loop footer of `chunk_text`:
`next_start = end - overlap; start = next_start if next_start > start else end`.
`end - overlap` is natural subtraction; in Python the value can be negative,
but a negative `next_start` never satisfies `next_start > start`, so the
truncated comparison agrees with the Python one. -/
def nextStart (len csize ov start : Nat) : Nat :=
  let e := min (start + csize) len
  if start < e - ov then e - ov else e

/-- The `while start < len(text)` loop of `chunk_text`, with explicit fuel.
`none` models non-termination (the fuel given by `chunk_text` is proved
sufficient whenever `csize ≥ 1`). -/
def chunkLoop (t : List Char) (csize ov : Nat) : Nat → Nat → Nat → Option (List Chunk)
  | 0, start, _ => if start < t.length then none else some []
  | fuel + 1, start, idx =>
    if start < t.length then
      let e := min (start + csize) t.length
      let c := pyStrip (pySlice t start e)
      if c.isEmpty then
        chunkLoop t csize ov fuel (nextStart t.length csize ov start) idx
      else
        (chunkLoop t csize ov fuel (nextStart t.length csize ov start) (idx + 1)).map
          (fun rest => ⟨idx, c⟩ :: rest)
    else some []

/-- `chunk_text(text, chunk_size, overlap)` from `app/rag/ingest.py`:
strip the text, return `[]` if empty, else run the windowing loop. -/
def chunk_text (text : List Char) (csize ov : Nat) : Option (List Chunk) :=
  let t := pyStrip text
  if t.isEmpty then some [] else chunkLoop t csize ov t.length 0 0

/-! ## SHA-256 (for `hashlib.sha256(text.encode("utf-8")).digest()`) -/

/-- Truncate to a 32-bit word. -/
def w32 (x : Nat) : Nat := x % 4294967296

/-- 32-bit rotate right. -/
def rotr32 (n x : Nat) : Nat := w32 ((x >>> n) ||| (x <<< (32 - n)))

/-- 32-bit bitwise complement. -/
def bnot32 (x : Nat) : Nat := 4294967295 ^^^ x

/-- SHA-256 big sigma 0. -/
def bsig0 (x : Nat) : Nat := (rotr32 2 x) ^^^ (rotr32 13 x) ^^^ (rotr32 22 x)

/-- SHA-256 big sigma 1. -/
def bsig1 (x : Nat) : Nat := (rotr32 6 x) ^^^ (rotr32 11 x) ^^^ (rotr32 25 x)

/-- SHA-256 small sigma 0. -/
def ssig0 (x : Nat) : Nat := (rotr32 7 x) ^^^ (rotr32 18 x) ^^^ (x >>> 3)

/-- SHA-256 small sigma 1. -/
def ssig1 (x : Nat) : Nat := (rotr32 17 x) ^^^ (rotr32 19 x) ^^^ (x >>> 10)

/-- SHA-256 choice function. -/
def chF (e f g : Nat) : Nat := (e &&& f) ^^^ ((bnot32 e) &&& g)

/-- SHA-256 majority function. -/
def majF (a b c : Nat) : Nat := (a &&& b) ^^^ (a &&& c) ^^^ (b &&& c)

/-- SHA-256 round constants (decimal). -/
def sha256K : List Nat :=
  [1116352408, 1899447441, 3049323471, 3921009573, 961987163,
   1508970993, 2453635748, 2870763221, 3624381080, 310598401,
   607225278, 1426881987, 1925078388, 2162078206, 2614888103,
   3248222580, 3835390401, 4022224774, 264347078, 604807628,
   770255983, 1249150122, 1555081692, 1996064986, 2554220882,
   2821834349, 2952996808, 3210313671, 3336571891, 3584528711,
   113926993, 338241895, 666307205, 773529912, 1294757372,
   1396182291, 1695183700, 1986661051, 2177026350, 2456956037,
   2730485921, 2820302411, 3259730800, 3345764771, 3516065817,
   3600352804, 4094571909, 275423344, 430227734, 506948616,
   659060556, 883997877, 958139571, 1322822218, 1537002063,
   1747873779, 1955562222, 2024104815, 2227730452, 2361852424,
   2428436474, 2756734187, 3204031479, 3329325298]

/-- SHA-256 initial hash state (decimal). -/
def sha256H0 : List Nat :=
  [1779033703, 3144134277, 1013904242, 2773480762,
   1359893119, 2600822924, 528734635, 1541459225]

/-- Big-endian byte decomposition of `x` into `k` bytes. -/
def beBytes (k x : Nat) : List Nat :=
  (List.range k).map (fun i => (x >>> (8 * (k - 1 - i))) % 256)

/-- SHA-256 padding: append `0x80`, zeros, and the 64-bit big-endian bit length. -/
def padMsg (msg : List Nat) : List Nat :=
  let L := msg.length
  let z := (120 - ((L + 1) % 64)) % 64
  msg ++ [0x80] ++ List.replicate z 0 ++ beBytes 8 (L * 8)

/-- Assemble big-endian 32-bit words from bytes. -/
def toWords : List Nat → List Nat
  | b0 :: b1 :: b2 :: b3 :: rest => ((b0 <<< 24) + (b1 <<< 16) + (b2 <<< 8) + b3) :: toWords rest
  | _ => []

/-- Extend a message schedule by one word. -/
def extendW (w : List Nat) : List Nat :=
  w ++ [w32 (ssig1 (w.getD (w.length - 2) 0) + w.getD (w.length - 7) 0 +
             ssig0 (w.getD (w.length - 15) 0) + w.getD (w.length - 16) 0)]

/-- Extend the 16 block words to the 64 schedule words. -/
def scheduleAll (w : List Nat) : Nat → List Nat
  | 0 => w
  | n + 1 => scheduleAll (extendW w) n

/-- One SHA-256 compression round on the 8-word state. -/
def stepRound (st : List Nat) (kw : Nat × Nat) : List Nat :=
  match st with
  | [a, b, c, d, e, f, g, hh] =>
    let t1 := w32 (hh + bsig1 e + chF e f g + kw.1 + kw.2)
    let t2 := w32 (bsig0 a + majF a b c)
    [w32 (t1 + t2), a, b, c, w32 (d + t1), e, f, g]
  | l => l

/-- Compress one 64-byte block into the hash state. -/
def compressBlock (H : List Nat) (block : List Nat) : List Nat :=
  let w := scheduleAll (toWords block) 48
  let st := (sha256K.zip w).foldl stepRound H
  (H.zip st).map (fun p => w32 (p.1 + p.2))

/-- Split a padded message into `n` 64-byte blocks. -/
def blocksOf : Nat → List Nat → List (List Nat)
  | 0, _ => []
  | n + 1, l => l.take 64 :: blocksOf n (l.drop 64)

/-- SHA-256 of a byte string, as 32 bytes. -/
def sha256 (msg : List Nat) : List Nat :=
  let p := padMsg msg
  ((blocksOf (p.length / 64) p).foldl compressBlock sha256H0).flatMap (beBytes 4)

/-- UTF-8 encoding of a string (Python `text.encode("utf-8")`). -/
def utf8Bytes (s : List Char) : List Nat :=
  s.flatMap (fun c =>
    let n := c.toNat
    if n < 0x80 then [n]
    else if n < 0x800 then [0xC0 ||| (n >>> 6), 0x80 ||| (n &&& 0x3F)]
    else if n < 0x10000 then
      [0xE0 ||| (n >>> 12), 0x80 ||| ((n >>> 6) &&& 0x3F), 0x80 ||| (n &&& 0x3F)]
    else
      [0xF0 ||| (n >>> 18), 0x80 ||| ((n >>> 12) &&& 0x3F),
       0x80 ||| ((n >>> 6) &&& 0x3F), 0x80 ||| (n &&& 0x3F)])

/-! ## Embedding provider (`app/rag/embeddings.py`) -/

/-- The exception classes caught around the Bedrock call:
`except (BotoCoreError, ClientError, KeyError, ValueError)`.
`json.JSONDecodeError` and `UnicodeDecodeError` are subclasses of
`ValueError`, so a malformed response is covered by `valueError`. -/
inductive ProvErr where
  | botoCoreError
  | clientError
  | keyError
  | valueError
deriving DecidableEq, Repr

/-- `_mock_embedding(text, dim=1024)`: expand the SHA-256 digest of the
UTF-8 encoded text into 1024 components `((h[i % len(h)] / 255) * 2) - 1`. -/
def mock_embedding (t : List Char) : List ℚ :=
  let h := sha256 (utf8Bytes t)
  (List.range 1024).map (fun i => ((h.getD (i % h.length) 0 : ℚ) / 255) * 2 - 1)

/-- `embed_texts(texts)`: offline mode (`USE_BEDROCK` false) maps every text
to its mock embedding; live mode calls the provider per text and falls back
to the mock embedding on any caught provider error.  The provider call
(boto3 invoke, body read, JSON decode, `["embedding"]` lookup) is the
function argument `provider`; each of its failure modes is one of the
caught exception classes, i.e. a `ProvErr`. -/
def embed_texts (useBedrock : Bool) (provider : List Char → Except ProvErr (List ℚ))
    (texts : List (List Char)) : List (List ℚ) :=
  if useBedrock = false then
    texts.map mock_embedding
  else
    texts.map (fun t =>
      match provider t with
      | .ok v => v
      | .error _ => mock_embedding t)

/-! ## Vector store rows

`app/rag/db.py` (`init_db`) defines the multi-tenant schema: `documents`
and `chunks` both carry `user_id` and `notebook`; a chunk stores its
embedding as a float32 blob plus an explicit `embedding_dim`.  The
superseded single-tenant `ingest.py` / `retrieve.py` under the sources
read and write only the tenant-free columns, so both row shapes are
embedded.  A blob is modelled as the list of float32 values it encodes
(`_emb_to_blob` / `np.frombuffer` are inverse on whole buffers). -/

/-- A `documents` row as written by the superseded single-tenant
`ingest_markdown`: `(id, title, source)`. -/
structure DocRow where
  id : String
  title : String
  source : String
deriving DecidableEq, Repr

/-- A `chunks` row as written by the superseded single-tenant
`ingest_markdown`: `(id, doc_id, chunk_index, content, token_count,
embedding, embedding_dim)`. -/
structure ChunkRow where
  id : String
  doc_id : String
  chunk_index : Nat
  content : List Char
  token_count : Option Nat
  embedding : List ℚ
  embedding_dim : Nat
deriving DecidableEq, Repr

/-- The single-tenant SQLite store contents. -/
structure Store where
  documents : List DocRow
  chunks : List ChunkRow
deriving DecidableEq, Repr

/-- A `documents` row under the multi-tenant schema of `db.init_db`. -/
structure DocRowM where
  id : String
  user_id : String
  notebook : String
  title : String
  source : String
deriving DecidableEq, Repr

/-- A `chunks` row under the multi-tenant schema of `db.init_db`. -/
structure ChunkRowM where
  id : String
  user_id : String
  doc_id : String
  notebook : String
  chunk_index : Nat
  content : List Char
  token_count : Option Nat
  embedding : List ℚ
  embedding_dim : Nat
deriving DecidableEq, Repr

/-- The multi-tenant SQLite store contents (the `users` table plays no role
in the retrieval core and is omitted). -/
structure StoreM where
  documents : List DocRowM
  chunks : List ChunkRowM
deriving DecidableEq, Repr

/-- One row of the candidate `SELECT ... FROM chunks c JOIN documents d`. -/
structure RowJ where
  chunk_id : String
  doc_title : String
  doc_source : String
  chunk_index : Nat
  content : List Char
  embedding : List ℚ
  embedding_dim : Nat
deriving DecidableEq, Repr

instance : Inhabited RowJ := ⟨⟨"", "", "", 0, [], [], 0⟩⟩

/-- A retrieval hit as assembled by `retrieve`. -/
structure Hit where
  chunk_id : String
  doc_title : String
  doc_source : String
  chunk_index : Nat
  content : List Char
  score : ℚ
deriving DecidableEq, Repr

/-! ## Retrieval engine (`app/rag/retrieve.py`, SQLite path) -/

/-- The failure points of the SQLite retrieval path: `np.frombuffer` with a
buffer shorter than `count=dim`, `np.vstack` on ragged rows, and `M @ q`
on a row length different from the query length.  Each raises a
`ValueError` in numpy; the constructors record which check fired. -/
inductive RetErr where
  | frombufferShort
  | vstackEmpty
  | vstackRagged
  | matmulDim
deriving DecidableEq, Repr

/-- `k = top_k or int(os.getenv("TOP_K", "5"))`: `None` and `0` are falsy
in Python, so both select the default 5. -/
def pyTopK (top_k : Option Int) : Int :=
  match top_k with
  | none => 5
  | some t => if t = 0 then 5 else t

/-- Python `l[:k]` for an `int` `k`: a nonnegative `k` keeps the first `k`
elements, a negative `k` drops the last `-k`. -/
def pyTake (k : Int) (l : List α) : List α :=
  if 0 ≤ k then l.take k.toNat else l.take (l.length - (-k).toNat)

/-- `np.frombuffer(r["embedding"], dtype=np.float32, count=dim)`: fails if
the buffer holds fewer than `dim` values, otherwise yields the first `dim`. -/
def decodeEmb (r : RowJ) : Except RetErr (List ℚ) :=
  if r.embedding.length < r.embedding_dim then .error .frombufferShort
  else .ok (r.embedding.take r.embedding_dim)

/-- The `for r in rows` decode loop: stop at the first failing row. -/
def decodeAll : List RowJ → Except RetErr (List (List ℚ))
  | [] => .ok []
  | r :: rs =>
    match decodeEmb r with
    | .error e => .error e
    | .ok v =>
      match decodeAll rs with
      | .error e => .error e
      | .ok vs => .ok (v :: vs)

/-- Descending-score order on `(index, score)` pairs, the order in which
`np.argsort(-sims)` enumerates candidate indices. -/
def scoreRel (a b : Nat × ℚ) : Prop := b.2 ≤ a.2

instance : DecidableRel scoreRel := fun a b => inferInstanceAs (Decidable (b.2 ≤ a.2))

instance : IsTotal (Nat × ℚ) scoreRel := ⟨fun a b => le_total b.2 a.2⟩

instance : IsTrans (Nat × ℚ) scoreRel := ⟨fun _ _ _ h1 h2 => le_trans h2 h1⟩

/-- The SQLite retrieval pipeline after the candidate rows are loaded:
empty-row early return, per-row `np.frombuffer` decode, `np.vstack`,
`_cosine_sim_matrix` (its structural dimension requirement `M @ q`
explicit, its numeric kernel the parameter `sim`), `np.argsort(-sims)[:k]`,
and hit assembly. -/
def scanPipeline (sim : List ℚ → List ℚ → ℚ) (rows : List RowJ) (query : List Char)
    (top_k : Option Int) : Except RetErr (List Hit) :=
  let k := pyTopK top_k
  let q := mock_embedding query
  if rows.isEmpty then .ok []
  else
    match decodeAll rows with
    | .error e => .error e
    | .ok embs =>
      match embs with
      | [] => .error .vstackEmpty
      | v :: vs =>
        if vs.all (fun w => w.length = v.length) then
          if v.length = q.length then
            let sims := (v :: vs).map (fun w => sim q w)
            let sorted := List.insertionSort scoreRel sims.enum
            let top := pyTake k sorted
            .ok (top.map (fun p =>
              let r := rows.getD p.1 default
              ⟨r.chunk_id, r.doc_title, r.doc_source, r.chunk_index, r.content, p.2⟩))
          else .error .matmulDim
        else .error .vstackRagged

/-- The candidate `SELECT` of the superseded single-tenant `retrieve`
(no `WHERE` clause): every chunk joined to its document. -/
def rowsJoined (st : Store) : List RowJ :=
  st.chunks.flatMap (fun c =>
    (st.documents.filter (fun d => d.id = c.doc_id)).map (fun d =>
      ⟨c.id, d.title, d.source, c.chunk_index, c.content, c.embedding, c.embedding_dim⟩))

/-- `retrieve(query, top_k)` from `app/rag/retrieve.py`, SQLite path: embed
the query offline, load all chunk rows, score, sort, truncate. -/
def retrieve (sim : List ℚ → List ℚ → ℚ) (st : Store) (query : List Char)
    (top_k : Option Int) : Except RetErr (List Hit) :=
  scanPipeline sim (rowsJoined st) query top_k

/-- The hits a caller receives: the list on success, nothing on error. -/
def hitsOf (r : Except RetErr (List Hit)) : List Hit :=
  match r with
  | .ok hs => hs
  | .error _ => []

/-- Whether a retrieval call failed. -/
def isErr (r : Except RetErr (List Hit)) : Bool :=
  match r with
  | .error _ => true
  | .ok _ => false

/-- Modelled from the spec: the multi-tenant candidate query.  The
tenant-aware `retrieve(user_id, notebook, query, top_k)` that
`app/main.py` (`v1_chat`) calls is not among the source files — the
`retrieve.py` present is a superseded single-tenant version whose
signature rejects the keyword arguments `main.py` passes.  Following the
spec (all reads in multi-tenant mode filter by `(user_id, notebook)`), the
candidate set is the chunks of that tenant scope, each joined to its
document by primary key; the rest of the pipeline is the one of
`retrieve.py`. -/
def rowsJoinedM (u nb : String) (st : StoreM) : List RowJ :=
  (st.chunks.filter (fun c => c.user_id = u ∧ c.notebook = nb)).flatMap (fun c =>
    (st.documents.filter (fun d => d.id = c.doc_id)).map (fun d =>
      ⟨c.id, d.title, d.source, c.chunk_index, c.content, c.embedding, c.embedding_dim⟩))

/-- Modelled from the spec: the multi-tenant `retrieve(user_id, notebook,
query, top_k)` — the tenant-filtered candidate set fed to the pipeline of
`retrieve.py`. -/
def retrieve_mt (sim : List ℚ → List ℚ → ℚ) (u nb : String) (st : StoreM)
    (query : List Char) (top_k : Option Int) : Except RetErr (List Hit) :=
  scanPipeline sim (rowsJoinedM u nb st) query top_k

/-! ## Ingestion pipeline (`app/rag/ingest.py`, SQLite path) -/

/-- The single failure mode modelled for a SQLite `INSERT` executed inside
`sqlite_conn`: the statement raises, the exception propagates through the
`with` block, `conn.commit()` is skipped and `conn.close()` discards the
open transaction. -/
inductive IngestErr where
  | insertFailed
deriving DecidableEq, Repr

/-- `_emb_to_blob(vec)`: the float32 buffer and its length. -/
def emb_to_blob (v : List ℚ) : List ℚ × Nat := (v, v.length)

/-- The `for c, emb in zip(chunks, embeddings)` insert loop: stage one
`chunks` row per pair; `failChunk i` tells whether the `i`-th `INSERT`
raises, in which case the loop aborts with the exception. -/
def stageChunkRows (docId : String) (chunkId : Nat → String) (failChunk : Nat → Bool) :
    Nat → List (Chunk × List ℚ) → Except IngestErr (List ChunkRow)
  | _, [] => .ok []
  | i, (c, e) :: rest =>
    if failChunk i then .error .insertFailed
    else
      match stageChunkRows docId chunkId failChunk (i + 1) rest with
      | .error er => .error er
      | .ok rs => .ok (⟨chunkId i, docId, c.chunk_index, c.content, none,
                        (emb_to_blob e).1, (emb_to_blob e).2⟩ :: rs)

/-- `ingest_markdown(title, source, markdown)` from `app/rag/ingest.py`,
SQLite path.  `doc_id` and the chunk ids are the `uuid4` values drawn by
the call; `failDoc` / `failChunk` are the outcomes of the individual
`INSERT` statements.  The `with sqlite_conn()` semantics of `app/rag/db.py`
are explicit in the result: if any staged `INSERT` raised, the exception
propagates, `commit` is skipped and the store is unchanged; otherwise the
document row and all chunk rows are committed together.  `none` models a
diverging chunker call. -/
def ingest_markdown (title source : String) (markdown : List Char) (csize ov : Nat)
    (docId : String) (chunkId : Nat → String) (useBedrock : Bool)
    (provider : List Char → Except ProvErr (List ℚ)) (failDoc : Bool)
    (failChunk : Nat → Bool) (st : Store) :
    Option (Store × Except IngestErr (String × Nat)) :=
  match chunk_text markdown csize ov with
  | none => none
  | some [] => some (st, .ok (docId, 0))
  | some (c0 :: cs) =>
    let chunks := c0 :: cs
    let embs := embed_texts useBedrock provider (chunks.map Chunk.content)
    let body : Except IngestErr (List ChunkRow) :=
      if failDoc then .error .insertFailed
      else stageChunkRows docId chunkId failChunk 0 (chunks.zip embs)
    match body with
    | .error e => some (st, .error e)
    | .ok rows =>
      some (⟨st.documents ++ [⟨docId, title, source⟩], st.chunks ++ rows⟩,
            .ok (docId, chunks.length))

/-- Modelled from the spec: the multi-tenant
`ingest_markdown(user_id, notebook, title, source, markdown)` that
`app/main.py` (`v1_ingest`) calls is not among the source files — the
`ingest.py` present is a superseded single-tenant version whose signature
rejects the keyword arguments `main.py` passes.  Following the spec
(§4.5): the document row, carrying the tenant scope, is created first; a
zero-chunk input still records the document and returns chunk count 0;
otherwise all chunk contents are batch-embedded and one tenant-scoped
`chunks` row per chunk is committed with the document. -/
def ingest_mt (u nb title source : String) (markdown : List Char) (csize ov : Nat)
    (docId : String) (chunkId : Nat → String) (useBedrock : Bool)
    (provider : List Char → Except ProvErr (List ℚ)) (st : StoreM) :
    Option (StoreM × String × Nat) :=
  match chunk_text markdown csize ov with
  | none => none
  | some cs =>
    let docs := st.documents ++ [⟨docId, u, nb, title, source⟩]
    match cs with
    | [] => some (⟨docs, st.chunks⟩, docId, 0)
    | c0 :: cs1 =>
      let chunks := c0 :: cs1
      let embs := embed_texts useBedrock provider (chunks.map Chunk.content)
      let rows := (chunks.zip embs).enum.map (fun p =>
        (⟨chunkId p.1, u, docId, nb, p.2.1.chunk_index, p.2.1.content, none,
          p.2.2, p.2.2.length⟩ : ChunkRowM))
      some (⟨docs, st.chunks ++ rows⟩, docId, chunks.length)

/-! ## Theorems -/

/-- The loop of `chunk_text` advances strictly whenever the window size is
positive, whatever the overlap. -/
theorem nextStart_lt (len csize ov start : Nat) (hcs : 1 ≤ csize) (h : start < len) :
    start < nextStart len csize ov start := by
  simp only [nextStart]
  split <;> omega

/-- With a positive window size, fuel `t.length - start` suffices for the
chunking loop to reach its exit condition. -/
theorem chunkLoop_isSome (t : List Char) (csize ov : Nat) (hcs : 1 ≤ csize) :
    ∀ fuel start idx, t.length - start ≤ fuel →
      (chunkLoop t csize ov fuel start idx).isSome = true := by
  intro fuel
  induction fuel with
  | zero =>
    intro start idx h
    have hns : ¬ start < t.length := by omega
    simp [chunkLoop, hns]
  | succ f ih =>
    intro start idx h
    by_cases hst : start < t.length
    · have hlt := nextStart_lt t.length csize ov start hcs hst
      have hfuel : t.length - nextStart t.length csize ov start ≤ f := by omega
      simp only [chunkLoop, if_pos hst]
      split
      · exact ih _ _ hfuel
      · simpa using ih _ _ hfuel
    · simp [chunkLoop, hst]

/-- Claim C4: for every input text and every overlap value, including
`overlap ≥ chunk_size`, `chunk_text` terminates whenever the window size
`chunk_size` is positive (as it is in every configuration, default 900):
the fuel equal to the stripped length is always sufficient, because the
loop start position strictly increases on every iteration. -/
theorem chunk_text_terminates (text : List Char) (csize ov : Nat) (hcs : 1 ≤ csize) :
    (chunk_text text csize ov).isSome = true ∧
      ∀ start, start < (pyStrip text).length →
        start < nextStart (pyStrip text).length csize ov start := by
  constructor
  · simp only [chunk_text]
    split
    · rfl
    · exact chunkLoop_isSome (pyStrip text) csize ov hcs _ 0 0 (by omega)
  · intro start h
    exact nextStart_lt _ _ _ _ hcs h

/-- Witness for C4: a concrete run with `overlap > chunk_size`. -/
theorem chunk_text_terminates_witness :
    1 ≤ 4 ∧
    ((chunk_text ("abc".toList) 4 7).isSome = true ∧
      ∀ start, start < (pyStrip ("abc".toList)).length →
        start < nextStart (pyStrip ("abc".toList)).length 4 7 start) :=
  ⟨by decide, chunk_text_terminates ("abc".toList) 4 7 (by decide)⟩

/-- Claim C2 counterexample: `chunk_text "abcdefghij" 4 2` does not return
the four chunks the claim lists, and in fact returns five chunks, not
four — after the window `text[6:10]` the loop sets
`start = end - overlap = 8 < 10`, so it also emits the residual window
`text[8:10] = "ij"` (non-empty after trimming) with index 4. -/
theorem chunk_example_four_chunks_false :
    (chunk_text ("abcdefghij".toList) 4 2 ≠
      some [⟨0, "abcd".toList⟩, ⟨1, "cdef".toList⟩, ⟨2, "efgh".toList⟩,
            ⟨3, "ghij".toList⟩]) ∧
    (chunk_text ("abcdefghij".toList) 4 2).map List.length = some 5 := by
  decide

/-- Claim C2 as amended: `chunk_text "abcdefghij" 4 2` returns exactly the
five chunks `"abcd", "cdef", "efgh", "ghij", "ij"` with indices 0–4 (the
window starts are 0, 2, 4, 6, 8, and the final window `text[8:10] = "ij"`
is non-empty after trimming, so it is emitted). -/
theorem chunk_example_five_chunks :
    chunk_text ("abcdefghij".toList) 4 2 =
      some [⟨0, "abcd".toList⟩, ⟨1, "cdef".toList⟩, ⟨2, "efgh".toList⟩,
            ⟨3, "ghij".toList⟩, ⟨4, "ij".toList⟩] := by
  decide

/-- Claim C9: in offline mode `embed_texts` is one mock embedding per input
text in input order; each mock embedding has exactly 1024 components; and
the result is a pure function of the texts alone (independent of the
provider, identical across evaluations). -/
theorem offline_embedding_deterministic_shape
    (p p2 : List Char → Except ProvErr (List ℚ)) (ts : List (List Char)) :
    embed_texts false p ts = ts.map mock_embedding ∧
    (embed_texts false p ts).length = ts.length ∧
    (∀ t, (mock_embedding t).length = 1024) ∧
    embed_texts false p ts = embed_texts false p2 ts := by
  refine ⟨rfl, by simp [embed_texts], ?_, rfl⟩
  intro t
  simp [mock_embedding]

/-- `embed_texts` yields one vector per input text in every mode. -/
theorem embed_texts_length (ub : Bool) (p : List Char → Except ProvErr (List ℚ))
    (ts : List (List Char)) : (embed_texts ub p ts).length = ts.length := by
  cases ub <;> simp [embed_texts]

/-- Claim C7: in live mode, `embed_texts` never propagates a provider
failure — it is total, returns one vector per input text, and each text on
which the provider fails receives the deterministic offline fallback
vector for that text. -/
theorem embed_texts_provider_failure_fallback
    (provider : List Char → Except ProvErr (List ℚ)) (ts : List (List Char)) :
    (embed_texts true provider ts).length = ts.length ∧
    ∀ i e, i < ts.length → provider (ts.getD i []) = .error e →
      (embed_texts true provider ts).getD i [] = mock_embedding (ts.getD i []) := by
  constructor
  · exact embed_texts_length true provider ts
  · intro i e hi hp
    have hrep : embed_texts true provider ts =
        ts.map (fun t =>
          match provider t with
          | .ok v => v
          | .error _ => mock_embedding t) := rfl
    have hi2 : i < (ts.map (fun t =>
        match provider t with
        | .ok v => v
        | .error _ => mock_embedding t)).length := by simpa using hi
    rw [hrep, List.getD_eq_getElem _ _ hi2, List.getElem_map,
        List.getD_eq_getElem _ _ hi] at *
    simp [hp]

/-- Witness for C7: a provider that always fails; the first vector equals
the fallback. -/
theorem embed_texts_provider_failure_fallback_witness :
    (0 < 1 ∧ (fun _ : List Char => (Except.error ProvErr.clientError : Except ProvErr (List ℚ))) ("ab".toList) = .error ProvErr.clientError) ∧
    (embed_texts true (fun _ => .error ProvErr.clientError) [("ab".toList)]).getD 0 []
      = mock_embedding (([("ab".toList)] : List (List Char)).getD 0 []) :=
  ⟨⟨by decide, rfl⟩,
   (embed_texts_provider_failure_fallback (fun _ => .error ProvErr.clientError)
      [("ab".toList)]).2 0 ProvErr.clientError (by decide) rfl⟩

/-- Claim C3, evaluated on the code: ingesting markdown that strips to
empty returns the fresh document id with chunk count 0 but leaves the
documents table untouched — `ingest_markdown` returns before any `INSERT`
when the chunker yields no chunks, so no document row is persisted,
contrary to the claim and to the ingestion design in the spec. -/
theorem ingest_empty_markdown_no_document_row :
    ingest_markdown ("T") ("local") ("".toList) 900 150 ("d1") (fun _ => "c")
      false (fun _ => .error .clientError) false (fun _ => false) ⟨[], []⟩
      = some (⟨[], []⟩, .ok (("d1"), 0)) := rfl

/-- A successful chunk-insert loop stages exactly one row per
(chunk, embedding) pair. -/
theorem stageChunkRows_ok_length (docId : String) (chunkId : Nat → String)
    (failChunk : Nat → Bool) :
    ∀ (l : List (Chunk × List ℚ)) (i : Nat) (rs : List ChunkRow),
      stageChunkRows docId chunkId failChunk i l = .ok rs → rs.length = l.length := by
  intro l
  induction l with
  | nil =>
    intro i rs h
    simp only [stageChunkRows] at h
    cases h
    rfl
  | cons p rest ih =>
    intro i rs h
    simp only [stageChunkRows] at h
    split at h
    · cases h
    · split at h
      · cases h
      · cases h
        simp only [List.length_cons]
        rw [ih _ _ (by assumption)]

/-- Claim C8: ingestion is atomic over the single `sqlite_conn` commit — if
the document `INSERT` or any chunk `INSERT` fails, the call propagates the
error and the store is unchanged (no row of the call is committed); on
success the store gains exactly one chunk row per reported chunk, so a
document is never durably stored with only part of its chunks and no error
reported. -/
theorem ingest_atomicity (title source : String) (markdown : List Char) (csize ov : Nat)
    (docId : String) (chunkId : Nat → String) (ub : Bool)
    (provider : List Char → Except ProvErr (List ℚ)) (failDoc : Bool)
    (failChunk : Nat → Bool) (st st2 : Store) (r : Except IngestErr (String × Nat))
    (hrun : ingest_markdown title source markdown csize ov docId chunkId ub provider
      failDoc failChunk st = some (st2, r)) :
    (∀ e, r = .error e → st2 = st) ∧
    (∀ d n, r = .ok (d, n) → st2.chunks.length = st.chunks.length + n) := by
  simp only [ingest_markdown] at hrun
  split at hrun
  · cases hrun
  · cases hrun
    constructor
    · intro e he
      cases he
    · intro d n hn
      cases hn
      rfl
  · rename_i c0 cs heq
    split at hrun
    · cases hrun
      constructor
      · intro e _
        rfl
      · intro d n hn
        cases hn
    · rename_i rows hrows
      cases hrun
      split at hrows
      · cases hrows
      · constructor
        · intro e he
          cases he
        · intro d n hn
          cases hn
          have h1 := stageChunkRows_ok_length docId chunkId failChunk _ _ _ hrows
          simp only [List.length_append, h1, List.length_zip, embed_texts_length,
            List.length_map, min_self]

/-- Witness for C8: a run whose first chunk `INSERT` fails leaves the empty
store unchanged and reports the error. -/
theorem ingest_atomicity_witness :
    (ingest_markdown ("T") ("s") ("hi".toList) 10 0 ("d1") (fun _ => "c") false
        (fun _ => .error .clientError) false (fun _ => true) ⟨[], []⟩
      = some (⟨[], []⟩, .error .insertFailed)) ∧
    ((∀ e, (.error .insertFailed : Except IngestErr (String × Nat)) = .error e →
        (⟨[], []⟩ : Store) = ⟨[], []⟩) ∧
     (∀ d n, (.error .insertFailed : Except IngestErr (String × Nat)) = .ok (d, n) →
        (⟨[], []⟩ : Store).chunks.length = (⟨[], []⟩ : Store).chunks.length + n)) :=
  ⟨rfl,
   ingest_atomicity ("T") ("s") ("hi".toList) 10 0 ("d1") (fun _ => "c") false
     (fun _ => .error .clientError) false (fun _ => true) ⟨[], []⟩ ⟨[], []⟩
     (.error .insertFailed) rfl⟩

/-- The offline query embedding always has 1024 components. -/
theorem mock_embedding_length (t : List Char) : (mock_embedding t).length = 1024 := by
  simp [mock_embedding]

/-- A positive Python slice bound keeps at most that many elements. -/
theorem pyTake_pos_length {α : Type} (k : Int) (hk : 1 ≤ k) (l : List α) :
    (pyTake k l).length ≤ k.toNat := by
  rw [pyTake, if_pos (by omega : (0:Int) ≤ k), List.length_take]
  exact min_le_left _ _

/-- `l[:k]` is a sublist of `l` for every `k`. -/
theorem pyTake_sublist {α : Type} (k : Int) (l : List α) : (pyTake k l).Sublist l := by
  unfold pyTake
  split <;> exact List.take_sublist _ _

/-- The pipeline behind `retrieve`: with a positive requested `top_k`, at
most that many hits come back and their scores are non-increasing, for
every candidate set, query and scoring kernel. -/
theorem scanPipeline_bound_sorted (sim : List ℚ → List ℚ → ℚ) (rows : List RowJ)
    (query : List Char) (k : Int) (hk : 1 ≤ k) :
    (hitsOf (scanPipeline sim rows query (some k))).length ≤ k.toNat ∧
    List.Sorted (· ≥ ·) ((hitsOf (scanPipeline sim rows query (some k))).map Hit.score) := by
  have hks : pyTopK (some k) = k := by
    simp only [pyTopK]
    rw [if_neg (by omega)]
  simp only [scanPipeline, hks]
  split
  · exact ⟨by simp [hitsOf], by simp [hitsOf, List.Sorted]⟩
  · split
    · exact ⟨by simp [hitsOf], by simp [hitsOf, List.Sorted]⟩
    · split
      · exact ⟨by simp [hitsOf], by simp [hitsOf, List.Sorted]⟩
      · split
        · split
          · simp only [hitsOf]
            constructor
            · rw [List.length_map]
              exact pyTake_pos_length k hk _
            · rw [List.map_map]
              unfold List.Sorted
              rw [List.pairwise_map]
              exact (List.Pairwise.sublist (pyTake_sublist _ _)
                (List.sorted_insertionSort scoreRel _)).imp (fun h => h)
          · exact ⟨by simp [hitsOf], by simp [hitsOf, List.Sorted]⟩
        · exact ⟨by simp [hitsOf], by simp [hitsOf, List.Sorted]⟩

/-- Claim C5 as amended: for every stored corpus, every query, every
scoring kernel and every requested `top_k ≥ 1`, `retrieve` returns at most
`top_k` hits and their scores are in non-increasing order.  (The
restriction to positive `top_k` is forced by the counterexample below:
`top_k or TOP_K_default` treats a requested 0 as unset.) -/
theorem retrieve_topk_bound_sorted (sim : List ℚ → List ℚ → ℚ) (st : Store)
    (query : List Char) (k : Int) (hk : 1 ≤ k) :
    (hitsOf (retrieve sim st query (some k))).length ≤ k.toNat ∧
    List.Sorted (· ≥ ·) ((hitsOf (retrieve sim st query (some k))).map Hit.score) :=
  scanPipeline_bound_sorted sim (rowsJoined st) query k hk

/-- Witness for C5 (amended): a concrete call with `top_k = 1`. -/
theorem retrieve_topk_bound_sorted_witness :
    (1 : Int) ≤ 1 ∧
    ((hitsOf (retrieve (fun _ _ => 0) ⟨[], []⟩ ("q".toList) (some 1))).length ≤ (1 : Int).toNat ∧
     List.Sorted (· ≥ ·)
       ((hitsOf (retrieve (fun _ _ => 0) ⟨[], []⟩ ("q".toList) (some 1))).map Hit.score)) :=
  ⟨by decide, retrieve_topk_bound_sorted (fun _ _ => 0) ⟨[], []⟩ ("q".toList) 1 (by decide)⟩

set_option maxRecDepth 100000 in
/-- Claim C5 counterexample: requesting `top_k = 0` does not bound the
result by 0 — `k = top_k or int(os.getenv("TOP_K", "5"))` treats the falsy
0 as unset and uses the default 5, so a store with one chunk yields one
hit. -/
theorem retrieve_topk_zero_returns_hits :
    ¬ ((hitsOf (retrieve (fun _ _ => 0)
        ⟨[⟨"d1", "T", "local"⟩],
         [⟨"c1", "d1", 0, ("x".toList), none, List.replicate 1024 0, 1024⟩]⟩
        ("q".toList) (some 0))).length ≤ 0) := by
  decide

/-- A successful decode loop returns, row by row, a vector of exactly the
recorded dimension (`np.frombuffer` with `count=dim`). -/
theorem decodeAll_forall2 :
    ∀ (rows : List RowJ) (embs : List (List ℚ)), decodeAll rows = .ok embs →
      List.Forall₂ (fun r (v : List ℚ) => v.length = r.embedding_dim) rows embs := by
  intro rows
  induction rows with
  | nil =>
    intro embs h
    simp only [decodeAll] at h
    cases h
    exact List.Forall₂.nil
  | cons r rs ih =>
    intro embs h
    simp only [decodeAll, decodeEmb] at h
    split at h
    · cases h
    · split at h
      · cases h
      · cases h
        rename_i hnlt _ _ hok
        refine List.Forall₂.cons ?_ (ih _ hok)
        split at hnlt
        · cases hnlt
        · cases hnlt
          rename_i hge
          rw [List.length_take]
          omega

/-- If `Forall₂ R` relates two lists, every member of the first has a
related member of the second. -/
theorem forall2_exists_right {α β : Type} {R : α → β → Prop} :
    ∀ {l1 : List α} {l2 : List β}, List.Forall₂ R l1 l2 →
      ∀ a ∈ l1, ∃ b ∈ l2, R a b := by
  intro l1 l2 h
  induction h with
  | nil =>
    intro a ha
    cases ha
  | cons hR _ ih =>
    intro a ha
    cases ha with
    | head => exact ⟨_, List.mem_cons_self _ _, hR⟩
    | tail _ hm =>
      obtain ⟨b, hb, hRb⟩ := ih a hm
      exact ⟨b, List.mem_cons_of_mem _ hb, hRb⟩

/-- Claim C6: if the recorded embedding dimension of any candidate row
differs from the query vector dimension (1024, the offline embedding size), the
whole `retrieve` call fails with an error — whichever numpy check fires
first (`np.frombuffer` on a short buffer, `np.vstack` on ragged rows, or
`M @ q` on a row length different from the query length), no row is
skipped and no vector is truncated or padded. -/
theorem retrieve_dimension_mismatch_errors (sim : List ℚ → List ℚ → ℚ) (st : Store)
    (query : List Char) (top_k : Option Int)
    (hmm : ∃ r ∈ rowsJoined st, r.embedding_dim ≠ 1024) :
    isErr (retrieve sim st query top_k) = true := by
  obtain ⟨r, hr, hd⟩ := hmm
  simp only [retrieve, scanPipeline]
  have hne : ¬ (rowsJoined st).isEmpty = true := by
    intro habs
    rw [List.isEmpty_iff] at habs
    rw [habs] at hr
    cases hr
  rw [if_neg hne]
  split
  · rfl
  · rename_i embs hok
    have hf2 := decodeAll_forall2 _ _ hok
    obtain ⟨v0, hv0, hlen⟩ := forall2_exists_right hf2 r hr
    split
    · rfl
    · rename_i v vs
      split
      · rename_i hall
        have hv0len : v0.length = v.length := by
          cases hv0 with
          | head => rfl
          | tail _ hm =>
            have := List.all_eq_true.mp hall v0 hm
            simpa using this
        rw [if_neg ?_]
        · rfl
        · intro habs
          rw [mock_embedding_length] at habs
          omega
      · rfl

/-- Witness for C6: a store holding one chunk with recorded dimension 3
makes every retrieval call fail. -/
theorem retrieve_dimension_mismatch_errors_witness :
    (∃ r ∈ rowsJoined ⟨[⟨"d1", "T", "local"⟩],
        [⟨"c1", "d1", 0, ("x".toList), none, [0, 0, 0], 3⟩]⟩, r.embedding_dim ≠ 1024) ∧
    isErr (retrieve (fun _ _ => 0)
        ⟨[⟨"d1", "T", "local"⟩],
         [⟨"c1", "d1", 0, ("x".toList), none, [0, 0, 0], 3⟩]⟩
        ("q".toList) none) = true :=
  ⟨by decide,
   retrieve_dimension_mismatch_errors (fun _ _ => 0)
     ⟨[⟨"d1", "T", "local"⟩], [⟨"c1", "d1", 0, ("x".toList), none, [0, 0, 0], 3⟩]⟩
     ("q".toList) none (by decide)⟩

/-- Appending a document row with a fresh id and chunk rows of another
tenant does not change the candidate set of tenant `u`: the tenant filter
drops the new chunk rows, and the primary-key join of the remaining chunks
never matches the fresh document id. -/
theorem rowsJoinedM_tenant_append (u nb : String) (st : StoreM) (docA : DocRowM)
    (newChunks : List ChunkRowM)
    (hu : ∀ c ∈ newChunks, ¬ c.user_id = u)
    (hfresh : ∀ c ∈ st.chunks, c.doc_id ≠ docA.id) :
    rowsJoinedM u nb ⟨st.documents ++ [docA], st.chunks ++ newChunks⟩
      = rowsJoinedM u nb st := by
  unfold rowsJoinedM
  rw [List.filter_append]
  have h1 : newChunks.filter (fun c => decide (c.user_id = u ∧ c.notebook = nb)) = [] := by
    rw [List.filter_eq_nil_iff]
    intro c hc
    simp only [decide_eq_true_eq, not_and]
    intro hcu
    exact absurd hcu (hu c hc)
  rw [h1, List.append_nil]
  apply List.flatMap_congr
  intro c hc
  have hcd : c.doc_id ≠ docA.id := hfresh c (List.mem_of_mem_filter hc)
  rw [List.filter_append]
  have h2 : [docA].filter (fun d => decide (d.id = c.doc_id)) = [] := by
    simp [Ne.symm hcd]
  rw [h2, List.append_nil]

/-- Claim C1: tenant isolation of retrieval.  For distinct tenants `A ≠ B`,
after tenant `A` ingests any document (any notebook, any markdown, any
chunking configuration, fresh document id), a retrieve call for tenant `B`
returns exactly what it returned before the ingestion — the hits for `B`
are a function of the stored chunks of `B` only, so no hit can come from
the data of `A`.  The tenant-filtered candidate query is modelled from the spec (see
`rowsJoinedM`); the pipeline around it is the one of `retrieve.py`. -/
theorem tenant_isolation_retrieve (sim : List ℚ → List ℚ → ℚ)
    (A B nbA nbB title source : String) (markdown : List Char) (csize ov : Nat)
    (docId : String) (chunkId : Nat → String) (ub : Bool)
    (provider : List Char → Except ProvErr (List ℚ)) (query : List Char)
    (top_k : Option Int) (st : StoreM)
    (hAB : A ≠ B) (hfresh : ∀ c ∈ st.chunks, c.doc_id ≠ docId) :
    (ingest_mt A nbA title source markdown csize ov docId chunkId ub provider st).map
        (fun res => retrieve_mt sim B nbB res.1 query top_k)
      = (ingest_mt A nbA title source markdown csize ov docId chunkId ub provider st).map
        (fun _ => retrieve_mt sim B nbB st query top_k) := by
  simp only [ingest_mt]
  split
  · rfl
  · split
    · simp only [Option.map_some']
      congr 1
      unfold retrieve_mt
      have h := rowsJoinedM_tenant_append B nbB st ⟨docId, A, nbA, title, source⟩ []
        (by intro c hc; cases hc) hfresh
      rw [List.append_nil] at h
      rw [h]
    · rename_i c0 cs1 heq
      simp only [Option.map_some']
      congr 1
      unfold retrieve_mt
      have hu : ∀ c ∈ ((c0 :: cs1).zip (embed_texts ub provider
            (List.map Chunk.content (c0 :: cs1)))).enum.map (fun p =>
              (⟨chunkId p.1, A, docId, nbA, p.2.1.chunk_index, p.2.1.content, none,
                p.2.2, p.2.2.length⟩ : ChunkRowM)),
          ¬ c.user_id = B := by
        intro c hc hcB
        obtain ⟨p, hp, rfl⟩ := List.mem_map.mp hc
        exact hAB hcB
      have h := rowsJoinedM_tenant_append B nbB st ⟨docId, A, nbA, title, source⟩ _
        hu hfresh
      rw [h]

/-- Witness for C1: the empty store, two distinct tenants and a concrete
document. -/
theorem tenant_isolation_retrieve_witness :
    (("a" : String) ≠ ("b" : String) ∧
      ∀ c ∈ (⟨[], []⟩ : StoreM).chunks, c.doc_id ≠ ("d1" : String)) ∧
    (ingest_mt ("a") ("nb") ("T") ("src") ("hello".toList) 4 1 ("d1") (fun _ => "c")
        false (fun _ => .error .clientError) ⟨[], []⟩).map
        (fun res => retrieve_mt (fun _ _ => 0) ("b") ("nb") res.1 ("q".toList) (some 4))
      = (ingest_mt ("a") ("nb") ("T") ("src") ("hello".toList) 4 1 ("d1") (fun _ => "c")
        false (fun _ => .error .clientError) ⟨[], []⟩).map
        (fun _ => retrieve_mt (fun _ _ => 0) ("b") ("nb") (⟨[], []⟩ : StoreM) ("q".toList) (some 4)) :=
  ⟨⟨by decide, by intro c hc; cases hc⟩,
   tenant_isolation_retrieve (fun _ _ => 0) ("a") ("b") ("nb") ("nb") ("T") ("src")
     ("hello".toList) 4 1 ("d1") (fun _ => "c") false (fun _ => .error .clientError)
     ("q".toList) (some 4) ⟨[], []⟩ (by decide) (by intro c hc; cases hc)⟩

end Rag
